import Mathlib

/-!
Verification of the chocolate_milk bootloader entry point
(`src/bootloader/src/main.rs`) against its design specification.

The only Rust source available is `main.rs`; the external crates it uses
(`page_table`, `boot_args`, `pe_parser`, `pxe`, `mm`, the `enter64`
trampoline) are modelled from the specification where noted.  All machine
integers are modelled as `Nat`, with an explicit `% 2 ^ 64` (resp.
`% 2 ^ 32`) exactly where the machine arithmetic wraps (the `AtomicU64`
stack-cursor `fetch_add`, the stack-top addition, and the `as u32`
truncation of the table roots).

Concurrency: in `main.rs` the `kernel_entry`, `page_table` and
`trampoline_page_table` locks are taken at lines 71-73 and held until the
end of the block at line 181, so the whole initialization-plus-per-core
section of every core is one critical section; cores therefore serialize,
and a multi-core execution is modelled as a sequence of invocations of
`entry` in an arbitrary arrival order (`runEntries`).
-/

set_option maxRecDepth 4000

/-! ## Definitions -/

/-- The 4 KiB page granularity (`PageType::Page4K`). -/
def PAGE_SIZE : Nat := 4096

/-- Modulus of 64-bit machine arithmetic. -/
def U64MOD : Nat := 2 ^ 64

/-- Modulus of 32-bit machine arithmetic (the `as u32` casts on the roots). -/
def U32MOD : Nat := 2 ^ 32

/-- Modelled from the spec: the `PAGE_PRESENT` bit constant of the external
`page_table` crate (x86 page-table entry present bit, bit 0). -/
def PAGE_PRESENT : Nat := 1

/-- Modelled from the spec: the `PAGE_WRITE` bit constant of the external
`page_table` crate (x86 page-table entry writable bit, bit 1). -/
def PAGE_WRITE : Nat := 2

/-- Modelled from the spec: a leaf entry installed in a page table.
`raw` is an entry whose bits are exactly a caller-supplied value
(`map_raw`, spec section 4.1); `page` is a freshly allocated frame with
explicit read/write/execute permissions and its byte content as a
function from the in-page offset (`map` / `map_init`, spec section 4.1). -/
inductive PTEntry where
  | raw (value : Nat)
  | page (read write execute : Bool) (content : Nat → Nat)

/-- The permission triple of a `page` entry, if any. -/
def PTEntry.perms : PTEntry → Option (Bool × Bool × Bool)
  | .raw _ => none
  | .page r w x _ => some (r, w, x)

/-- The byte at an in-page offset of a `page` entry, if any. -/
def PTEntry.byteAt : PTEntry → Nat → Option Nat
  | .raw _, _ => none
  | .page _ _ _ c, o => some (c o)

/-- Modelled from the spec: a page table is a root frame plus the finite
partial map of installed 4 KiB leaf entries, keyed by virtual address.
Intermediate levels are allocated lazily by the external crate and carry
no specified observable state, so they are not represented. -/
structure PageTable where
  root : Nat
  entries : Nat → Option PTEntry

/-- Modelled from the spec: the exclusively locked physical frame
allocator, abstracted to the next never-before-handed-out frame. -/
structure Pmem where
  next : Nat

/-- Modelled from the spec: `PageTable::new` allocates a fresh zeroed root
frame from the allocator. -/
def PageTable.new (pmem : Pmem) : PageTable × Pmem :=
  (⟨pmem.next, fun _ => none⟩, ⟨pmem.next + 1⟩)

/-- The translation a table holds for a page-aligned virtual address. -/
def PageTable.lookup (pt : PageTable) (vaddr : Nat) : Option PTEntry :=
  pt.entries vaddr

/-- Modelled from the spec: installing one leaf entry.  The request is
rejected (spec sections 4.1 and 8) when the base is not page-aligned or a
mapping already exists at that virtual address; overlap is never merged
or overwritten. -/
def PageTable.installPage (pt : PageTable) (vaddr : Nat) (e : PTEntry) :
    Option PageTable :=
  if vaddr % PAGE_SIZE == 0 && (pt.lookup vaddr).isNone then
    some { pt with entries := fun a => if a = vaddr then some e else pt.entries a }
  else
    none

/-- Modelled from the spec: `map_raw` installs one leaf entry whose bits
are exactly the caller-supplied raw value; aborts (returns `none`, which
every caller in `main.rs` `.unwrap()`s) if a mapping already exists. -/
def PageTable.map_raw (pt : PageTable) (vaddr value : Nat) : Option PageTable :=
  pt.installPage vaddr (PTEntry.raw value)

/-- The page-aligned offsets of the pages covering `[0, size)`:
`(0..size).step_by(4096)` of the Rust loops. -/
def pageStarts (size : Nat) : List Nat :=
  (List.range ((size + (PAGE_SIZE - 1)) / PAGE_SIZE)).map (· * PAGE_SIZE)

/-- Modelled from the spec: the byte content a `map_init` region gives the
page at region offset `p` — bytes `[0, size)` of the region come from the
byte source (`0` when there is no source, as in `map`), and the tail of
the last page past `size` is the zero fill of the fresh frame. -/
def initContent (size : Nat) (src : Option (Nat → Nat)) (p : Nat) : Nat → Nat :=
  fun o => if p + o < size then (match src with | some f => f (p + o) | none => 0) else 0

/-- Modelled from the spec: `map_init` walks the pages covering
`[vaddr, vaddr + size)`, allocating one fresh zeroed frame per page,
filling it from the byte source and installing the entry with the given
permissions.  Requests whose size is not a positive multiple of the page
granularity are rejected (spec section 8), as is any page that is
unaligned or already mapped. -/
def PageTable.map_init (pt : PageTable) (vaddr size : Nat) (r w x : Bool)
    (src : Option (Nat → Nat)) : Option PageTable :=
  if 0 < size ∧ size % PAGE_SIZE = 0 then
    (pageStarts size).foldl
      (fun acc p => acc.bind fun t =>
        t.installPage (vaddr + p) (PTEntry.page r w x (initContent size src p)))
      (some pt)
  else
    none

/-- Modelled from the spec: `map` is `map_init` with no byte source
(fresh zeroed frames), used for the per-core stacks. -/
def PageTable.map (pt : PageTable) (vaddr size : Nat) (r w x : Bool) :
    Option PageTable :=
  pt.map_init vaddr size r w x none

/-- The trampoline-table construction loop of `main.rs` lines 98-112: for
every page of `[0, bootloader_end)`, map it at its identity address and at
`KERNEL_PHYS_WINDOW_BASE + paddr`, both with raw entry
`paddr | PAGE_WRITE | PAGE_PRESENT`, unwrapping each `map_raw`. -/
def buildTrampoline (windowBase bootloaderEnd : Nat) (pt : PageTable) :
    Option PageTable :=
  (pageStarts bootloaderEnd).foldl
    (fun acc paddr => acc.bind fun t =>
      (t.map_raw paddr (paddr ||| PAGE_WRITE ||| PAGE_PRESENT)).bind fun t2 =>
        t2.map_raw (windowBase + paddr) (paddr ||| PAGE_WRITE ||| PAGE_PRESENT))
    (some pt)

/-- The kernel-table linear-window loop of `main.rs` lines 118-125: for
every page of `[0, KERNEL_PHYS_WINDOW_SIZE)`, map virtual
`KERNEL_PHYS_WINDOW_BASE + paddr` with raw entry
`paddr | PAGE_WRITE | PAGE_PRESENT`, unwrapping each `map_raw`. -/
def buildKernelWindow (windowBase windowSize : Nat) (pt : PageTable) :
    Option PageTable :=
  (pageStarts windowSize).foldl
    (fun acc paddr => acc.bind fun t =>
      t.map_raw (windowBase + paddr) (paddr ||| PAGE_WRITE ||| PAGE_PRESENT))
    (some pt)

/-- A section descriptor as yielded by the external image parser:
virtual address, virtual size, raw bytes, and the three permissions. -/
structure PeSection where
  vaddr : Nat
  vsize : Nat
  raw : List Nat
  read : Bool
  write : Bool
  execute : Bool

/-- The byte-source closure of `main.rs` lines 135-137:
`raw.get(off as usize).copied().unwrap_or(0)`. -/
def byteSource (raw : List Nat) (off : Nat) : Nat :=
  (raw.get? off).getD 0

/-- The section-loading loop of `main.rs` lines 128-147.  The `Option`
returned by `map_init` is discarded at the call site (lines 132-137 carry
no `.unwrap()`, unlike every other mapping call in the file), so a failed
section mapping leaves the table as it was and iteration continues; the
closure then unconditionally returns `Some(())`. -/
def loadSections (pt : PageTable) (secs : List PeSection) : PageTable :=
  secs.foldl
    (fun t s =>
      (t.map_init s.vaddr s.vsize s.read s.write s.execute
        (some (byteSource s.raw))).getD t)
    pt

/-- Modelled from the spec: the downloaded-and-parsed kernel image
(sections 6 "Image fetch" and "Image parser"): entry virtual address and
the section descriptors in yield order. -/
structure PeImage where
  entry_point : Nat
  sections : List PeSection

/-- The build-time constants (spec section 6) together with the
per-invocation inputs of `entry`: `bootloader_end`, the address of the
static `BOOT_ARGS` structure, and the result of downloading and parsing
`chocolate_milk.kern` (`none` models download or parse failure). -/
structure Config where
  bootloader_end : Nat
  KERNEL_PHYS_WINDOW_BASE : Nat
  KERNEL_PHYS_WINDOW_SIZE : Nat
  KERNEL_STACKS_BASE : Nat
  KERNEL_STACK_SIZE : Nat
  KERNEL_STACK_PAD : Nat
  bootArgsPtr : Nat
  kernel : Option PeImage

/-- The mutable fields of the static `BOOT_ARGS : BootArgs` of
`main.rs` lines 31-39 that the claims concern (the serial and print locks
only drive diagnostics and are omitted). -/
structure BootArgs where
  free_memory : Option Pmem
  page_table : Option PageTable
  trampoline_page_table : Option PageTable
  kernel_entry : Option Nat
  stack_vaddr : Nat

/-- The initializer of the static `BOOT_ARGS` (`main.rs` lines 31-39):
every cell unset and the stack cursor at `KERNEL_STACKS_BASE`. -/
def initBootArgs (cfg : Config) : BootArgs :=
  { free_memory := none
    page_table := none
    trampoline_page_table := none
    kernel_entry := none
    stack_vaddr := cfg.KERNEL_STACKS_BASE }

/-- Modelled from the spec: `mm::init()` sets up the physical allocator
exactly once, behind the same idempotent unset-check pattern as the other
cells (spec sections 3 and 6). -/
def mmInit (st : BootArgs) : BootArgs :=
  if st.free_memory.isNone then { st with free_memory := some ⟨1⟩ } else st

/-- The one-time download/parse/build body of `main.rs` lines 80-154,
given exclusive access to the allocator: download and parse the kernel
(`expect`), build the trampoline table, build the kernel table's linear
window, and load the image sections.  Returns the kernel entry point, the
kernel table, the trampoline table and the allocator state. -/
def buildKernel (cfg : Config) (pmem : Pmem) :
    Option (Nat × PageTable × PageTable × Pmem) :=
  cfg.kernel.bind fun pe =>
    let tp := PageTable.new pmem
    (buildTrampoline cfg.KERNEL_PHYS_WINDOW_BASE cfg.bootloader_end tp.1).bind
      fun tramp =>
        let kp := PageTable.new tp.2
        (buildKernelWindow cfg.KERNEL_PHYS_WINDOW_BASE
            cfg.KERNEL_PHYS_WINDOW_SIZE kp.1).bind fun ktw =>
          some (pe.entry_point, loadSections ktw pe.sections, tramp, kp.2)

/-- The guarded one-time section of `main.rs` lines 76-155: if
`kernel_entry` is unset, assert both tables are unset (line 77, a
violated `assert!` aborts the core), run the build, and set the three
cells; otherwise skip the block entirely. -/
def oneTime (cfg : Config) (st : BootArgs) : Option BootArgs :=
  if st.kernel_entry.isNone then
    if st.page_table.isSome || st.trampoline_page_table.isSome then
      none
    else
      st.free_memory.bind fun pmem =>
        (buildKernel cfg pmem).bind fun r =>
          some { st with
                  kernel_entry := some r.1
                  trampoline_page_table := some r.2.2.1
                  page_table := some r.2.1
                  free_memory := some r.2.2.2 }
  else
    some st

/-- The six arguments handed to the external `enter64` trampoline
(`main.rs` lines 183-191). -/
structure Handoff where
  entry_point : Nat
  stack : Nat
  param : Nat
  cr3 : Nat
  tramp_cr3 : Nat
  phys_window_base : Nat
deriving DecidableEq

/-- The per-core tail of the critical section, `main.rs` lines 157-180:
re-acquire the allocator (`expect`), unwrap the kernel table, perform the
sequentially-consistent `fetch_add` of `KERNEL_STACK_SIZE +
KERNEL_STACK_PAD` on the shared stack cursor taking the previous value as
this core's stack base, map the stack read/write/no-execute (`unwrap`),
and read out the handoff values (the two roots truncated `as u32`). -/
def perCore (cfg : Config) (st : BootArgs) : Option (Handoff × BootArgs) :=
  st.free_memory.bind fun _pmem =>
    st.page_table.bind fun pt =>
      let stack_addr := st.stack_vaddr
      let cursor := (st.stack_vaddr +
        (cfg.KERNEL_STACK_SIZE + cfg.KERNEL_STACK_PAD)) % U64MOD
      (pt.map stack_addr cfg.KERNEL_STACK_SIZE true true false).bind fun pt2 =>
        st.kernel_entry.bind fun ke =>
          st.trampoline_page_table.bind fun tr =>
            some
              ({ entry_point := ke
                 stack := (stack_addr + cfg.KERNEL_STACK_SIZE) % U64MOD
                 param := cfg.bootArgsPtr
                 cr3 := pt2.root % U32MOD
                 tramp_cr3 := tr.root % U32MOD
                 phys_window_base := cfg.KERNEL_PHYS_WINDOW_BASE },
               { st with page_table := some pt2, stack_vaddr := cursor })

/-- One core's run of `entry` (`main.rs` lines 45-192): allocator
initialization, then the critical section (one-time build if needed,
then the per-core work), ending in the call to `enter64` whose arguments
are the returned `Handoff`.  `none` models the core aborting (a failed
`expect`/`unwrap`/`assert!`) and never issuing its handoff. -/
def entry (cfg : Config) (st : BootArgs) : Option (Handoff × BootArgs) :=
  (oneTime cfg (mmInit st)).bind fun st1 => perCore cfg st1

/-- A sequence of `n` cores invoking `entry` one after another — faithful
to the machine because the whole section runs under the three locks
(see the file comment); returns the handoffs in arrival order and the
final shared state. -/
def runEntries (cfg : Config) : Nat → BootArgs → Option (List Handoff × BootArgs)
  | 0, st => some ([], st)
  | n + 1, st =>
    (entry cfg st).bind fun p =>
      (runEntries cfg n p.2).map fun q => (p.1 :: q.1, q.2)

/-- All three one-time cells of `BOOT_ARGS` are unset. -/
def allUnset (st : BootArgs) : Bool :=
  st.kernel_entry.isNone && st.page_table.isNone &&
    st.trampoline_page_table.isNone

/-- All three one-time cells of `BOOT_ARGS` are set. -/
def allSet (st : BootArgs) : Bool :=
  st.kernel_entry.isSome && st.page_table.isSome &&
    st.trampoline_page_table.isSome

/-- The guard of `main.rs` line 76: the download/parse/build sequence
runs on this invocation exactly when the kernel-entry cell is unset. -/
def runsBuild (st : BootArgs) : Bool :=
  st.kernel_entry.isNone

/-- Run a sequence of single-page installs from an optional table — the
shape every mapping loop of the file reduces to. -/
def installSeqO (o : Option PageTable) (l : List (Nat × PTEntry)) :
    Option PageTable :=
  l.foldl (fun acc pe => acc.bind fun t => t.installPage pe.1 pe.2) o

/-- The install sequence of the trampoline loop (`main.rs` lines 98-112):
for each covered page, the identity mapping then the window-shifted
mapping, both with the same raw entry value. -/
def trampPairs (windowBase bootloaderEnd : Nat) : List (Nat × PTEntry) :=
  (pageStarts bootloaderEnd).flatMap fun p =>
    [(p, PTEntry.raw (p ||| PAGE_WRITE ||| PAGE_PRESENT)),
     (windowBase + p, PTEntry.raw (p ||| PAGE_WRITE ||| PAGE_PRESENT))]

/-- The install sequence of the kernel linear-window loop
(`main.rs` lines 118-125). -/
def windowPairs (windowBase windowSize : Nat) : List (Nat × PTEntry) :=
  (pageStarts windowSize).map fun p =>
    (windowBase + p, PTEntry.raw (p ||| PAGE_WRITE ||| PAGE_PRESENT))

/-- The install sequence of one `map_init` region. -/
def initPairs (vaddr size : Nat) (r w x : Bool) (src : Option (Nat → Nat)) :
    List (Nat × PTEntry) :=
  (pageStarts size).map fun p =>
    (vaddr + p, PTEntry.page r w x (initContent size src p))

/-- The byte a table holds at byte offset `off` from base `base`: look up
the covering page and read its content at the in-page offset. -/
def PageTable.byteAt (pt : PageTable) (base off : Nat) : Option Nat :=
  (pt.lookup (base + off / PAGE_SIZE * PAGE_SIZE)).bind fun e =>
    e.byteAt (off % PAGE_SIZE)

/-- The one-time-built kernel table's translation for `a`, observed
through the `Option` layers: the state left by the guarded one-time
section, its kernel-table cell, then the lookup. -/
def builtTableLookup (cfg : Config) (st0 : BootArgs) (a : Nat) : Option PTEntry :=
  ((oneTime cfg (mmInit st0)).bind fun stB => stB.page_table).bind
    fun TB => TB.lookup a

/-- A small concrete boot configuration: one bootloader page, a two-page
physical window, and a kernel image with one two-page section backed by
three raw bytes. -/
def exCfg : Config :=
  { bootloader_end := 4096
    KERNEL_PHYS_WINDOW_BASE := 0x100000
    KERNEL_PHYS_WINDOW_SIZE := 8192
    KERNEL_STACKS_BASE := 0x200000
    KERNEL_STACK_SIZE := 4096
    KERNEL_STACK_PAD := 4096
    bootArgsPtr := 0x7000
    kernel := some ⟨0x12345, [⟨0x10000, 0x2000, [7, 8, 9], true, false, true⟩]⟩ }

/-- The pristine shared state of `exCfg`. -/
def exSt0 : BootArgs := initBootArgs exCfg

/-- A placeholder handoff for `Option.getD`. -/
def junkHandoff : Handoff := ⟨0, 0, 0, 0, 0, 0⟩

/-- The result of the first core's `entry` under `exCfg`. -/
def exP1 : Handoff × BootArgs := (entry exCfg exSt0).getD (junkHandoff, exSt0)

/-- The result of the second core's `entry` under `exCfg`. -/
def exP2 : Handoff × BootArgs := (entry exCfg exP1.2).getD (junkHandoff, exSt0)

/-- A two-core serialized run under `exCfg`. -/
def exRun2 : List Handoff × BootArgs :=
  (runEntries exCfg 2 exSt0).getD ([], exSt0)

/-- As `exCfg` but with a 16-byte stack guard pad, used to exercise the
guard-region property on a single core. -/
def exCfg8 : Config :=
  { bootloader_end := 4096
    KERNEL_PHYS_WINDOW_BASE := 0x100000
    KERNEL_PHYS_WINDOW_SIZE := 8192
    KERNEL_STACKS_BASE := 0x200000
    KERNEL_STACK_SIZE := 4096
    KERNEL_STACK_PAD := 16
    bootArgsPtr := 0x7000
    kernel := some ⟨0x12345, [⟨0x10000, 0x2000, [7, 8, 9], true, false, true⟩]⟩ }

/-- The pristine shared state of `exCfg8`. -/
def exSt08 : BootArgs := initBootArgs exCfg8

/-- A one-core serialized run under `exCfg8`. -/
def exRun8 : List Handoff × BootArgs :=
  (runEntries exCfg8 1 exSt08).getD ([], exSt08)

/-- A configuration whose kernel image contains two overlapping sections
(both at virtual `0x10000`) followed by a third disjoint section — the
second section's `map_init` must fail. -/
def bugCfg : Config :=
  { bootloader_end := 4096
    KERNEL_PHYS_WINDOW_BASE := 0x100000
    KERNEL_PHYS_WINDOW_SIZE := 4096
    KERNEL_STACKS_BASE := 0x200000
    KERNEL_STACK_SIZE := 4096
    KERNEL_STACK_PAD := 4096
    bootArgsPtr := 0x7000
    kernel := some ⟨0x12345,
      [⟨0x10000, 0x1000, [1, 2, 3], true, false, false⟩,
       ⟨0x10000, 0x1000, [9], true, true, false⟩,
       ⟨0x20000, 0x1000, [], true, false, true⟩]⟩ }

/-- The kernel table of `bugCfg` right after its linear window is built
(root frame 2, matching the allocation order inside `entry`). -/
def bugKtw : PageTable :=
  (buildKernelWindow 0x100000 4096 ⟨2, fun _ => none⟩).getD ⟨0, fun _ => none⟩

/-- The kernel table of `bugCfg` after its first section is loaded. -/
def bugTableAfterA : PageTable :=
  (bugKtw.map_init 0x10000 0x1000 true false false
    (some (byteSource [1, 2, 3]))).getD bugKtw

/-- An empty table for the `map_init` byte-content example. -/
def exPT6base : PageTable := ⟨0, fun _ => none⟩

/-- A two-page region mapped from the three raw bytes `[7, 8, 9]`. -/
def exPT6 : PageTable :=
  (exPT6base.map_init 0x10000 8192 true false true
    (some (byteSource [7, 8, 9]))).getD exPT6base

/-- A table that already maps virtual `4096`. -/
def exPT9 : PageTable :=
  ⟨3, fun a => if a = 4096 then some (PTEntry.raw 7) else none⟩

/-- A fresh table for the linear-window example. -/
def exWinT0 : PageTable := ⟨2, fun _ => none⟩

/-- The two-page linear window built over `exWinT0`. -/
def exWinPT : PageTable :=
  (buildKernelWindow 0x100000 8192 exWinT0).getD exWinT0

/-- A fresh table for the trampoline example. -/
def exTrampT0 : PageTable := ⟨1, fun _ => none⟩

/-- The double-mapped trampoline table built over `exTrampT0`. -/
def exTrampPT : PageTable :=
  (buildTrampoline 0x100000 8192 exTrampT0).getD exTrampT0

/-! ## Theorems -/

theorem installSeqO_none (l : List (Nat × PTEntry)) :
    installSeqO none l = none := by
  induction l with
  | nil => rfl
  | cons pe l ih => simpa [installSeqO] using ih

theorem installSeqO_cons (pt : PageTable) (pe : Nat × PTEntry)
    (l : List (Nat × PTEntry)) :
    installSeqO (some pt) (pe :: l) = installSeqO (pt.installPage pe.1 pe.2) l :=
  rfl

theorem PageTable.installPage_spec {pt pt' : PageTable} {v : Nat} {e : PTEntry}
    (h : pt.installPage v e = some pt') :
    pt'.root = pt.root ∧ v % PAGE_SIZE = 0 ∧ pt.lookup v = none ∧
      pt'.lookup v = some e ∧ ∀ a, a ≠ v → pt'.lookup a = pt.lookup a := by
  unfold PageTable.installPage at h
  split at h
  · rename_i hg
    rw [Bool.and_eq_true, beq_iff_eq, Option.isNone_iff_eq_none] at hg
    injection h with h
    subst h
    refine ⟨rfl, hg.1, hg.2, ?_, ?_⟩
    · simp [PageTable.lookup]
    · intro a ha
      simp [PageTable.lookup, ha]
  · exact absurd h (by simp)

theorem installSeqO_spec (l : List (Nat × PTEntry)) :
    ∀ pt pt' : PageTable, installSeqO (some pt) l = some pt' →
      pt'.root = pt.root ∧
      (∀ a e, pt.lookup a = some e → pt'.lookup a = some e) ∧
      (∀ a, a ∉ l.map Prod.fst → pt'.lookup a = pt.lookup a) ∧
      (∀ pe, pe ∈ l → pt'.lookup pe.1 = some pe.2) := by
  induction l with
  | nil =>
    intro pt pt' h
    injection h with h
    subst h
    exact ⟨rfl, fun _ _ h => h, fun _ _ => rfl, fun pe hpe => absurd hpe (by simp)⟩
  | cons pe l ih =>
    intro pt pt' h
    rw [installSeqO_cons] at h
    cases hi : pt.installPage pe.1 pe.2 with
    | none => rw [hi, installSeqO_none] at h; exact absurd h (by simp)
    | some pt1 =>
      rw [hi] at h
      obtain ⟨hroot1, hfresh1, hnone1, hself1, hother1⟩ :=
        PageTable.installPage_spec hi
      obtain ⟨hroot, hpres, hnot, hmem⟩ := ih pt1 pt' h
      refine ⟨hroot.trans hroot1, ?_, ?_, ?_⟩
      · intro a e hae
        refine hpres a e ?_
        rcases eq_or_ne a pe.1 with rfl | hne
        · rw [hnone1] at hae; exact absurd hae (by simp)
        · rw [hother1 a hne]; exact hae
      · intro a ha
        rw [List.map_cons, List.mem_cons] at ha
        push_neg at ha
        rw [hnot a ha.2, hother1 a ha.1]
      · intro qe hqe
        rcases List.mem_cons.mp hqe with rfl | hq
        · exact hpres qe.1 qe.2 hself1
        · exact hmem qe hq

theorem installSeqO_append (o : Option PageTable) (l1 l2 : List (Nat × PTEntry)) :
    installSeqO o (l1 ++ l2) = installSeqO (installSeqO o l1) l2 := by
  unfold installSeqO
  rw [List.foldl_append]

theorem buildTrampoline_eq (windowBase bootloaderEnd : Nat) (pt : PageTable) :
    buildTrampoline windowBase bootloaderEnd pt =
      installSeqO (some pt) (trampPairs windowBase bootloaderEnd) := by
  unfold buildTrampoline trampPairs
  generalize pageStarts bootloaderEnd = l
  suffices h : ∀ o : Option PageTable,
      l.foldl (fun acc paddr => acc.bind fun t =>
        (t.map_raw paddr (paddr ||| PAGE_WRITE ||| PAGE_PRESENT)).bind fun t2 =>
          t2.map_raw (windowBase + paddr) (paddr ||| PAGE_WRITE ||| PAGE_PRESENT)) o =
      installSeqO o (l.flatMap fun p =>
        [(p, PTEntry.raw (p ||| PAGE_WRITE ||| PAGE_PRESENT)),
         (windowBase + p, PTEntry.raw (p ||| PAGE_WRITE ||| PAGE_PRESENT))]) by
    exact h (some pt)
  intro o
  induction l generalizing o with
  | nil => rfl
  | cons p l ih =>
    rw [List.flatMap_cons, installSeqO_append]
    simp only [List.foldl_cons]
    have hstep : (o.bind fun t =>
        (t.map_raw p (p ||| PAGE_WRITE ||| PAGE_PRESENT)).bind fun t2 =>
          t2.map_raw (windowBase + p) (p ||| PAGE_WRITE ||| PAGE_PRESENT)) =
        installSeqO o
          [(p, PTEntry.raw (p ||| PAGE_WRITE ||| PAGE_PRESENT)),
           (windowBase + p, PTEntry.raw (p ||| PAGE_WRITE ||| PAGE_PRESENT))] := by
      cases o <;> rfl
    rw [hstep]
    exact ih _

theorem buildKernelWindow_eq (windowBase windowSize : Nat) (pt : PageTable) :
    buildKernelWindow windowBase windowSize pt =
      installSeqO (some pt) (windowPairs windowBase windowSize) := by
  unfold buildKernelWindow windowPairs installSeqO
  rw [List.foldl_map]
  rfl

theorem map_init_eq (pt : PageTable) (vaddr size : Nat) (r w x : Bool)
    (src : Option (Nat → Nat)) (hs : 0 < size ∧ size % PAGE_SIZE = 0) :
    pt.map_init vaddr size r w x src =
      installSeqO (some pt) (initPairs vaddr size r w x src) := by
  unfold PageTable.map_init initPairs installSeqO
  rw [if_pos hs, List.foldl_map]

theorem map_init_some (pt pt' : PageTable) (vaddr size : Nat) (r w x : Bool)
    (src : Option (Nat → Nat)) (h : pt.map_init vaddr size r w x src = some pt') :
    (0 < size ∧ size % PAGE_SIZE = 0) ∧
      installSeqO (some pt) (initPairs vaddr size r w x src) = some pt' := by
  by_cases hs : 0 < size ∧ size % PAGE_SIZE = 0
  · exact ⟨hs, by rw [← map_init_eq pt vaddr size r w x src hs]; exact h⟩
  · unfold PageTable.map_init at h
    rw [if_neg hs] at h
    exact absurd h (by simp)

theorem mem_pageStarts_of {p size : Nat} (hmod : p % PAGE_SIZE = 0)
    (hlt : p < size) : p ∈ pageStarts size := by
  unfold pageStarts
  rw [List.mem_map]
  refine ⟨p / PAGE_SIZE, ?_, Nat.div_mul_cancel (Nat.dvd_of_mod_eq_zero hmod)⟩
  rw [List.mem_range]
  have hp : p / PAGE_SIZE * PAGE_SIZE = p :=
    Nat.div_mul_cancel (Nat.dvd_of_mod_eq_zero hmod)
  have h4 : (0 : Nat) < PAGE_SIZE := by decide
  rw [Nat.lt_iff_add_one_le, Nat.le_div_iff_mul_le h4]
  unfold PAGE_SIZE at hp ⊢
  omega

theorem pageStarts_lt {p size : Nat} (h : p ∈ pageStarts size) : p < size := by
  unfold pageStarts at h
  rw [List.mem_map] at h
  obtain ⟨k, hk, rfl⟩ := h
  rw [List.mem_range] at hk
  have h4 : (0 : Nat) < PAGE_SIZE := by decide
  have h1 : (k + 1) * PAGE_SIZE ≤ (size + (PAGE_SIZE - 1)) / PAGE_SIZE * PAGE_SIZE := by
    exact Nat.mul_le_mul_right _ hk
  have h2 : (size + (PAGE_SIZE - 1)) / PAGE_SIZE * PAGE_SIZE ≤ size + (PAGE_SIZE - 1) :=
    Nat.div_mul_le_self _ _
  unfold PAGE_SIZE at h1 h2 ⊢
  omega

theorem pageStarts_mod {p size : Nat} (h : p ∈ pageStarts size) :
    p % PAGE_SIZE = 0 := by
  unfold pageStarts at h
  rw [List.mem_map] at h
  obtain ⟨k, _, rfl⟩ := h
  exact Nat.mul_mod_left k PAGE_SIZE

theorem map_some {pt pt' : PageTable} {vaddr size : Nat} {r w x : Bool}
    (h : pt.map vaddr size r w x = some pt') :
    (0 < size ∧ size % PAGE_SIZE = 0) ∧
      installSeqO (some pt) (initPairs vaddr size r w x none) = some pt' :=
  map_init_some pt pt' vaddr size r w x none h

theorem map_init_root {pt pt' : PageTable} {vaddr size : Nat} {r w x : Bool}
    {src : Option (Nat → Nat)}
    (h : pt.map_init vaddr size r w x src = some pt') : pt'.root = pt.root :=
  (installSeqO_spec _ _ _ (map_init_some pt pt' vaddr size r w x src h).2).1

theorem loadSections_root (secs : List PeSection) :
    ∀ pt : PageTable, (loadSections pt secs).root = pt.root := by
  induction secs with
  | nil => intro pt; rfl
  | cons s secs ih =>
    intro pt
    unfold loadSections
    rw [List.foldl_cons]
    cases hmi : pt.map_init s.vaddr s.vsize s.read s.write s.execute
        (some (byteSource s.raw)) with
    | none => exact ih pt
    | some t2 => exact (ih t2).trans (map_init_root hmi)

theorem mmInit_fields (st : BootArgs) :
    (mmInit st).kernel_entry = st.kernel_entry ∧
    (mmInit st).page_table = st.page_table ∧
    (mmInit st).trampoline_page_table = st.trampoline_page_table ∧
    (mmInit st).stack_vaddr = st.stack_vaddr ∧
    (mmInit st).free_memory.isSome = true := by
  unfold mmInit
  split
  · exact ⟨rfl, rfl, rfl, rfl, rfl⟩
  · rename_i hfm
    rw [Bool.not_eq_true, Option.isNone_eq_false_iff] at hfm
    exact ⟨rfl, rfl, rfl, rfl, hfm⟩

theorem oneTime_skip (cfg : Config) (st : BootArgs) (ke : Nat)
    (hke : st.kernel_entry = some ke) : oneTime cfg st = some st := by
  unfold oneTime
  rw [hke]
  rfl

theorem oneTime_build {cfg : Config} {st st' : BootArgs}
    (hke : st.kernel_entry = none) (h : oneTime cfg st = some st') :
    st.page_table = none ∧ st.trampoline_page_table = none ∧
    ∃ pm pe tramp ktw,
      st.free_memory = some pm ∧ cfg.kernel = some pe ∧
      buildTrampoline cfg.KERNEL_PHYS_WINDOW_BASE cfg.bootloader_end
        ⟨pm.next, fun _ => none⟩ = some tramp ∧
      buildKernelWindow cfg.KERNEL_PHYS_WINDOW_BASE cfg.KERNEL_PHYS_WINDOW_SIZE
        ⟨pm.next + 1, fun _ => none⟩ = some ktw ∧
      st' = { st with
              kernel_entry := some pe.entry_point,
              trampoline_page_table := some tramp,
              page_table := some (loadSections ktw pe.sections),
              free_memory := some ⟨pm.next + 2⟩ } := by
  unfold oneTime at h
  rw [hke] at h
  simp only [Option.isNone_none, if_true] at h
  by_cases hpt : st.page_table.isSome || st.trampoline_page_table.isSome
  · rw [if_pos hpt] at h
    exact absurd h (by simp)
  · rw [if_neg hpt] at h
    rw [Bool.or_eq_true, not_or, Option.not_isSome_iff_eq_none,
      Option.not_isSome_iff_eq_none] at hpt
    refine ⟨hpt.1, hpt.2, ?_⟩
    cases hfm : st.free_memory with
    | none => rw [hfm] at h; exact absurd h (by simp)
    | some pm =>
    rw [hfm] at h
    simp only [Option.some_bind] at h
    unfold buildKernel at h
    cases hker : cfg.kernel with
    | none => rw [hker] at h; exact absurd h (by simp)
    | some pe =>
    rw [hker] at h
    simp only [Option.some_bind, PageTable.new] at h
    cases htr : buildTrampoline cfg.KERNEL_PHYS_WINDOW_BASE cfg.bootloader_end
        ⟨pm.next, fun _ => none⟩ with
    | none => rw [htr] at h; exact absurd h (by simp)
    | some tramp =>
    rw [htr] at h
    simp only [Option.some_bind] at h
    cases hkw : buildKernelWindow cfg.KERNEL_PHYS_WINDOW_BASE
        cfg.KERNEL_PHYS_WINDOW_SIZE ⟨pm.next + 1, fun _ => none⟩ with
    | none => rw [hkw] at h; exact absurd h (by simp)
    | some ktw =>
    rw [hkw] at h
    simp only [Option.some_bind, Option.some.injEq] at h
    exact ⟨pm, pe, tramp, ktw, rfl, rfl, htr, hkw, h.symm⟩

theorem perCore_spec {cfg : Config} {st st' : BootArgs} {h : Handoff}
    (hpc : perCore cfg st = some (h, st')) :
    ∃ pm pt pt2 ke tr,
      st.free_memory = some pm ∧ st.page_table = some pt ∧
      st.kernel_entry = some ke ∧ st.trampoline_page_table = some tr ∧
      pt.map st.stack_vaddr cfg.KERNEL_STACK_SIZE true true false = some pt2 ∧
      h = { entry_point := ke,
            stack := (st.stack_vaddr + cfg.KERNEL_STACK_SIZE) % U64MOD,
            param := cfg.bootArgsPtr,
            cr3 := pt2.root % U32MOD,
            tramp_cr3 := tr.root % U32MOD,
            phys_window_base := cfg.KERNEL_PHYS_WINDOW_BASE } ∧
      st' = { st with
              page_table := some pt2,
              stack_vaddr := (st.stack_vaddr +
                (cfg.KERNEL_STACK_SIZE + cfg.KERNEL_STACK_PAD)) % U64MOD } := by
  unfold perCore at hpc
  cases hfm : st.free_memory with
  | none => rw [hfm] at hpc; exact absurd hpc (by simp)
  | some pm =>
  rw [hfm] at hpc
  simp only [Option.some_bind] at hpc
  cases hpt : st.page_table with
  | none => rw [hpt] at hpc; exact absurd hpc (by simp)
  | some pt =>
  rw [hpt] at hpc
  simp only [Option.some_bind] at hpc
  cases hm : pt.map st.stack_vaddr cfg.KERNEL_STACK_SIZE true true false with
  | none => rw [hm] at hpc; exact absurd hpc (by simp)
  | some pt2 =>
  rw [hm] at hpc
  simp only [Option.some_bind] at hpc
  cases hke : st.kernel_entry with
  | none => rw [hke] at hpc; exact absurd hpc (by simp)
  | some ke =>
  rw [hke] at hpc
  simp only [Option.some_bind] at hpc
  cases htr : st.trampoline_page_table with
  | none => rw [htr] at hpc; exact absurd hpc (by simp)
  | some tr =>
  rw [htr] at hpc
  simp only [Option.some_bind, Option.some.injEq, Prod.mk.injEq] at hpc
  exact ⟨pm, pt, pt2, ke, tr, rfl, rfl, rfl, rfl, hm, hpc.1.symm, hpc.2.symm⟩

theorem oneTime_stack {cfg : Config} {st st1 : BootArgs}
    (h : oneTime cfg st = some st1) : st1.stack_vaddr = st.stack_vaddr := by
  cases hke : st.kernel_entry with
  | some ke =>
    rw [oneTime_skip cfg st ke hke] at h
    injection h with h
    subst h
    rfl
  | none =>
    obtain ⟨_, _, pm, pe, tramp, ktw, _, _, _, _, hst⟩ := oneTime_build hke h
    subst hst
    rfl

theorem entry_cursor {cfg : Config} {st st' : BootArgs} {h : Handoff}
    (he : entry cfg st = some (h, st')) :
    st'.stack_vaddr = (st.stack_vaddr +
      (cfg.KERNEL_STACK_SIZE + cfg.KERNEL_STACK_PAD)) % U64MOD ∧
    h.stack = (st.stack_vaddr + cfg.KERNEL_STACK_SIZE) % U64MOD := by
  unfold entry at he
  cases hot : oneTime cfg (mmInit st) with
  | none => rw [hot] at he; exact absurd he (by simp)
  | some st1 =>
  rw [hot] at he
  simp only [Option.some_bind] at he
  obtain ⟨pm, pt, pt2, ke, tr, _, _, _, _, _, hh, hst⟩ := perCore_spec he
  have h1 : st1.stack_vaddr = st.stack_vaddr :=
    (oneTime_stack hot).trans (mmInit_fields st).2.2.2.1
  constructor
  · rw [hst, h1]
  · rw [hh, h1]

theorem entry_allSet {cfg : Config} {st st' : BootArgs} {h : Handoff}
    (he : entry cfg st = some (h, st')) : allSet st' = true := by
  unfold entry at he
  cases hot : oneTime cfg (mmInit st) with
  | none => rw [hot] at he; exact absurd he (by simp)
  | some st1 =>
  rw [hot] at he
  simp only [Option.some_bind] at he
  obtain ⟨pm, pt, pt2, ke, tr, _, _, hke, htr, _, _, hst⟩ := perCore_spec he
  subst hst
  unfold allSet
  simp [hke, htr]

theorem runEntries_formula {cfg : Config} :
    ∀ (n : Nat) (st : BootArgs) (hs : List Handoff) (stF : BootArgs),
      runEntries cfg n st = some (hs, stF) → st.stack_vaddr < U64MOD →
      hs.length = n ∧
      stF.stack_vaddr = (st.stack_vaddr +
        n * (cfg.KERNEL_STACK_SIZE + cfg.KERNEL_STACK_PAD)) % U64MOD ∧
      ∀ i (hi : i < hs.length),
        (hs.get ⟨i, hi⟩).stack = (st.stack_vaddr +
          i * (cfg.KERNEL_STACK_SIZE + cfg.KERNEL_STACK_PAD) +
          cfg.KERNEL_STACK_SIZE) % U64MOD := by
  intro n
  induction n with
  | zero =>
    intro st hs stF h hlt
    unfold runEntries at h
    injection h with h
    rw [Prod.mk.injEq] at h
    obtain ⟨rfl, rfl⟩ := h
    refine ⟨rfl, ?_, ?_⟩
    · rw [Nat.zero_mul, Nat.add_zero, Nat.mod_eq_of_lt hlt]
    · intro i hi
      exact absurd hi (by simp)
  | succ n ih =>
    intro st hs stF h hlt
    unfold runEntries at h
    cases he : entry cfg st with
    | none => rw [he] at h; exact absurd h (by simp)
    | some p =>
    rw [he] at h
    simp only [Option.some_bind] at h
    cases hr : runEntries cfg n p.2 with
    | none => rw [hr] at h; exact absurd h (by simp)
    | some q =>
    rw [hr] at h
    have h' : some (p.1 :: q.1, q.2) = some (hs, stF) := h
    injection h' with h'
    rw [Prod.mk.injEq] at h'
    obtain ⟨rfl, rfl⟩ := h'
    have he' : entry cfg st = some (p.1, p.2) := he.trans (by rw [Prod.mk.eta])
    obtain ⟨hc, hstk⟩ := entry_cursor he'
    have hlt1 : p.2.stack_vaddr < U64MOD := by
      rw [hc]
      exact Nat.mod_lt _ (by decide)
    obtain ⟨hlen, hcur, hget⟩ := ih p.2 q.1 q.2 hr hlt1
    refine ⟨by rw [List.length_cons, hlen], ?_, ?_⟩
    · rw [hcur, hc, Nat.mod_add_mod]
      congr 1
      ring
    · intro i hi
      cases i with
      | zero =>
        show p.1.stack = _
        rw [Nat.zero_mul, Nat.add_zero]
        exact hstk
      | succ i =>
        have hi' : i < q.1.length := by
          rw [List.length_cons] at hi
          omega
        rw [List.get_cons_succ, hget i hi', hc, Nat.add_assoc, Nat.mod_add_mod]
        congr 1
        ring

theorem buildKernelWindow_root {windowBase windowSize : Nat} {pt pt' : PageTable}
    (h : buildKernelWindow windowBase windowSize pt = some pt') :
    pt'.root = pt.root := by
  rw [buildKernelWindow_eq] at h
  exact (installSeqO_spec _ _ _ h).1

theorem buildTrampoline_root {windowBase bootloaderEnd : Nat} {pt pt' : PageTable}
    (h : buildTrampoline windowBase bootloaderEnd pt = some pt') :
    pt'.root = pt.root := by
  rw [buildTrampoline_eq] at h
  exact (installSeqO_spec _ _ _ h).1

theorem map_root {pt pt' : PageTable} {vaddr size : Nat} {r w x : Bool}
    (h : pt.map vaddr size r w x = some pt') : pt'.root = pt.root :=
  map_init_root h

/-- C9: a `map_raw` request on a virtual address where a mapping already
exists in the same table is rejected — the call yields `none` (which every
caller in `main.rs` immediately `.unwrap()`s, aborting the core), and the
existing mapping is never merged with or overwritten by the request. -/
theorem map_raw_overlap_rejected {pt : PageTable} {vaddr value : Nat}
    {e : PTEntry} (h : pt.lookup vaddr = some e) :
    pt.map_raw vaddr value = none := by
  unfold PageTable.map_raw PageTable.installPage
  rw [h]
  simp

/-- C2: after a successful build of the kernel table's linear window, every
page-aligned physical address `p < KERNEL_PHYS_WINDOW_SIZE` is mapped at
virtual `KERNEL_PHYS_WINDOW_BASE + p` by a raw entry whose bits are exactly
`p | PAGE_WRITE | PAGE_PRESENT` — the read/write non-executable window
entry installed via `map_raw` (`main.rs` lines 118-125). -/
theorem kernel_window_mapped {windowBase windowSize : Nat}
    {pt0 pt' : PageTable} {p : Nat}
    (hbuild : buildKernelWindow windowBase windowSize pt0 = some pt')
    (hp : p % PAGE_SIZE = 0) (hlt : p < windowSize) :
    pt'.lookup (windowBase + p) =
      some (PTEntry.raw (p ||| PAGE_WRITE ||| PAGE_PRESENT)) := by
  rw [buildKernelWindow_eq] at hbuild
  refine (installSeqO_spec _ _ _ hbuild).2.2.2
    (windowBase + p, PTEntry.raw (p ||| PAGE_WRITE ||| PAGE_PRESENT)) ?_
  unfold windowPairs
  rw [List.mem_map]
  exact ⟨p, mem_pageStarts_of hp hlt, rfl⟩

/-- C5: after a successful build of the trampoline table, every
page-aligned `p < bootloader_end` is mapped both at its identity address
`p` and at `KERNEL_PHYS_WINDOW_BASE + p`, and the raw entry value — hence
every permission bit, in particular write and present — is identical at
the two virtual addresses (`main.rs` lines 98-112). -/
theorem trampoline_double_mapped {windowBase bootloaderEnd : Nat}
    {pt0 pt' : PageTable} {p : Nat}
    (hbuild : buildTrampoline windowBase bootloaderEnd pt0 = some pt')
    (hp : p % PAGE_SIZE = 0) (hlt : p < bootloaderEnd) :
    pt'.lookup p = some (PTEntry.raw (p ||| PAGE_WRITE ||| PAGE_PRESENT)) ∧
    pt'.lookup (windowBase + p) =
      some (PTEntry.raw (p ||| PAGE_WRITE ||| PAGE_PRESENT)) := by
  rw [buildTrampoline_eq] at hbuild
  have hmem := (installSeqO_spec _ _ _ hbuild).2.2.2
  have hpp : p ∈ pageStarts bootloaderEnd := mem_pageStarts_of hp hlt
  constructor
  · refine hmem (p, PTEntry.raw (p ||| PAGE_WRITE ||| PAGE_PRESENT)) ?_
    unfold trampPairs
    rw [List.mem_flatMap]
    exact ⟨p, hpp, by simp⟩
  · refine hmem (windowBase + p,
      PTEntry.raw (p ||| PAGE_WRITE ||| PAGE_PRESENT)) ?_
    unfold trampPairs
    rw [List.mem_flatMap]
    exact ⟨p, hpp, by simp⟩

/-- C6: when a section whose raw data is `raw` is loaded with requested
size `size`, the byte source handed to `map_init` (`main.rs` lines
135-137) yields the raw byte below `raw.length` and `0` from there on, so
for every offset below `size` the mapped region's byte is the raw byte on
`[0, min size raw.length)` and `0` on `[raw.length, size)`. -/
theorem map_init_contents {pt pt' : PageTable} {vaddr size : Nat}
    {r w x : Bool} {raw : List Nat} {off : Nat}
    (hmi : pt.map_init vaddr size r w x (some (byteSource raw)) = some pt')
    (hoff : off < size) :
    (∀ h : off < raw.length,
        byteSource raw off = raw.get ⟨off, h⟩ ∧
        pt'.byteAt vaddr off = some (raw.get ⟨off, h⟩)) ∧
    (raw.length ≤ off →
        byteSource raw off = 0 ∧ pt'.byteAt vaddr off = some 0) := by
  obtain ⟨hsz, hseq⟩ := map_init_some _ _ _ _ _ _ _ _ hmi
  have hdm : off / PAGE_SIZE * PAGE_SIZE + off % PAGE_SIZE = off := by
    unfold PAGE_SIZE
    omega
  have hple : off / PAGE_SIZE * PAGE_SIZE ≤ off := Nat.div_mul_le_self off _
  have hpmem : off / PAGE_SIZE * PAGE_SIZE ∈ pageStarts size :=
    mem_pageStarts_of (Nat.mul_mod_left _ _) (Nat.lt_of_le_of_lt hple hoff)
  have hlook : pt'.lookup (vaddr + off / PAGE_SIZE * PAGE_SIZE) =
      some (PTEntry.page r w x (initContent size (some (byteSource raw))
        (off / PAGE_SIZE * PAGE_SIZE))) := by
    refine (installSeqO_spec _ _ _ hseq).2.2.2
      (vaddr + off / PAGE_SIZE * PAGE_SIZE,
        PTEntry.page r w x (initContent size (some (byteSource raw))
          (off / PAGE_SIZE * PAGE_SIZE))) ?_
    unfold initPairs
    rw [List.mem_map]
    exact ⟨off / PAGE_SIZE * PAGE_SIZE, hpmem, rfl⟩
  have hbyte : pt'.byteAt vaddr off = some (byteSource raw off) := by
    unfold PageTable.byteAt
    rw [hlook]
    simp only [Option.some_bind, PTEntry.byteAt]
    unfold initContent
    rw [hdm, if_pos hoff]
  constructor
  · intro h
    have hsrc : byteSource raw off = raw.get ⟨off, h⟩ := by
      unfold byteSource
      rw [List.get?_eq_get h]
      rfl
    exact ⟨hsrc, by rw [hbyte, hsrc]⟩
  · intro h
    have hsrc : byteSource raw off = 0 := by
      unfold byteSource
      rw [List.get?_eq_none.mpr h]
      rfl
    exact ⟨hsrc, by rw [hbyte, hsrc]⟩

/-- C7: a core that completes `entry` hands off to the trampoline exactly
the six parameters of `main.rs` lines 183-191: the stored kernel entry
address, the top of its stack (this core's ticket base plus
`KERNEL_STACK_SIZE`), the address of the shared `BOOT_ARGS` structure,
the kernel table root and the trampoline table root (each truncated
`as u32`), and `KERNEL_PHYS_WINDOW_BASE`.  (The model returns the
arguments of the diverging external `enter64`, which never returns.) -/
theorem handoff_args {cfg : Config} {st st' : BootArgs} {h : Handoff}
    (he : entry cfg st = some (h, st')) :
    st'.kernel_entry = some h.entry_point ∧
    h.stack = (st.stack_vaddr + cfg.KERNEL_STACK_SIZE) % U64MOD ∧
    h.param = cfg.bootArgsPtr ∧
    (∀ t, st'.page_table = some t → h.cr3 = t.root % U32MOD) ∧
    (∀ t, st'.trampoline_page_table = some t → h.tramp_cr3 = t.root % U32MOD) ∧
    h.phys_window_base = cfg.KERNEL_PHYS_WINDOW_BASE := by
  have hstk := (entry_cursor he).2
  unfold entry at he
  cases hot : oneTime cfg (mmInit st) with
  | none => rw [hot] at he; exact absurd he (by simp)
  | some st1 =>
  rw [hot] at he
  simp only [Option.some_bind] at he
  obtain ⟨pm, pt, pt2, ke, tr, _, _, hke, htr, _, hh, hst⟩ := perCore_spec he
  subst hh
  subst hst
  refine ⟨hke, hstk, rfl, ?_, ?_, rfl⟩
  · intro t ht
    have ht' : some pt2 = some t := ht
    injection ht' with ht'
    rw [← ht']
  · intro t ht
    have ht' : st1.trampoline_page_table = some t := ht
    rw [htr] at ht'
    injection ht' with ht'
    rw [← ht']

/-- C4: for any serialized set of `n` invocations of the per-core stack
allocation (each a sequentially-consistent `fetch_add` of
`KERNEL_STACK_SIZE + KERNEL_STACK_PAD` on the shared cursor taking the
previous value as its base, `main.rs` lines 166-173), provided the cursor
does not wrap 64 bits, every core's returned stack top is its base plus
`KERNEL_STACK_SIZE`, and the resulting `[base, base + KERNEL_STACK_SIZE)`
ranges are pairwise disjoint and separated by at least
`KERNEL_STACK_PAD`, regardless of arrival order. -/
theorem stack_allocation_disjoint {cfg : Config} {n : Nat} {st0 : BootArgs}
    {hs : List Handoff} {stF : BootArgs}
    (hrun : runEntries cfg n st0 = some (hs, stF))
    (hnw : st0.stack_vaddr +
      n * (cfg.KERNEL_STACK_SIZE + cfg.KERNEL_STACK_PAD) < U64MOD) :
    hs.length = n ∧
    (∀ i (hi : i < hs.length),
      (hs.get ⟨i, hi⟩).stack = st0.stack_vaddr +
        i * (cfg.KERNEL_STACK_SIZE + cfg.KERNEL_STACK_PAD) +
        cfg.KERNEL_STACK_SIZE) ∧
    (∀ i j, i < n → j < n → i ≠ j →
      st0.stack_vaddr + i * (cfg.KERNEL_STACK_SIZE + cfg.KERNEL_STACK_PAD) +
          cfg.KERNEL_STACK_SIZE ≤
        st0.stack_vaddr + j * (cfg.KERNEL_STACK_SIZE + cfg.KERNEL_STACK_PAD) ∨
      st0.stack_vaddr + j * (cfg.KERNEL_STACK_SIZE + cfg.KERNEL_STACK_PAD) +
          cfg.KERNEL_STACK_SIZE ≤
        st0.stack_vaddr + i * (cfg.KERNEL_STACK_SIZE + cfg.KERNEL_STACK_PAD)) ∧
    (∀ i j, i < n → j < n → i ≠ j →
      st0.stack_vaddr + i * (cfg.KERNEL_STACK_SIZE + cfg.KERNEL_STACK_PAD) +
          cfg.KERNEL_STACK_SIZE + cfg.KERNEL_STACK_PAD ≤
        st0.stack_vaddr + j * (cfg.KERNEL_STACK_SIZE + cfg.KERNEL_STACK_PAD) ∨
      st0.stack_vaddr + j * (cfg.KERNEL_STACK_SIZE + cfg.KERNEL_STACK_PAD) +
          cfg.KERNEL_STACK_SIZE + cfg.KERNEL_STACK_PAD ≤
        st0.stack_vaddr + i * (cfg.KERNEL_STACK_SIZE + cfg.KERNEL_STACK_PAD)) := by
  have hlt : st0.stack_vaddr < U64MOD := by omega
  obtain ⟨hlen, _, hget⟩ := runEntries_formula n st0 hs stF hrun hlt
  have hsep : ∀ i j, i < n → j < n → i ≠ j →
      st0.stack_vaddr + i * (cfg.KERNEL_STACK_SIZE + cfg.KERNEL_STACK_PAD) +
          cfg.KERNEL_STACK_SIZE + cfg.KERNEL_STACK_PAD ≤
        st0.stack_vaddr + j * (cfg.KERNEL_STACK_SIZE + cfg.KERNEL_STACK_PAD) ∨
      st0.stack_vaddr + j * (cfg.KERNEL_STACK_SIZE + cfg.KERNEL_STACK_PAD) +
          cfg.KERNEL_STACK_SIZE + cfg.KERNEL_STACK_PAD ≤
        st0.stack_vaddr + i * (cfg.KERNEL_STACK_SIZE + cfg.KERNEL_STACK_PAD) := by
    intro i j hi hj hne
    rcases Nat.lt_or_ge i j with hij | hij
    · left
      have h1 : (i + 1) * (cfg.KERNEL_STACK_SIZE + cfg.KERNEL_STACK_PAD) ≤
          j * (cfg.KERNEL_STACK_SIZE + cfg.KERNEL_STACK_PAD) :=
        Nat.mul_le_mul_right _ hij
      have h2 : (i + 1) * (cfg.KERNEL_STACK_SIZE + cfg.KERNEL_STACK_PAD) =
          i * (cfg.KERNEL_STACK_SIZE + cfg.KERNEL_STACK_PAD) +
            (cfg.KERNEL_STACK_SIZE + cfg.KERNEL_STACK_PAD) := by ring
      omega
    · have hji : j < i := by omega
      right
      have h1 : (j + 1) * (cfg.KERNEL_STACK_SIZE + cfg.KERNEL_STACK_PAD) ≤
          i * (cfg.KERNEL_STACK_SIZE + cfg.KERNEL_STACK_PAD) := by
        refine Nat.mul_le_mul_right _ ?_
        omega
      have h2 : (j + 1) * (cfg.KERNEL_STACK_SIZE + cfg.KERNEL_STACK_PAD) =
          j * (cfg.KERNEL_STACK_SIZE + cfg.KERNEL_STACK_PAD) +
            (cfg.KERNEL_STACK_SIZE + cfg.KERNEL_STACK_PAD) := by ring
      omega
  refine ⟨hlen, ?_, ?_, hsep⟩
  · intro i hi
    have hin : i < n := by omega
    rw [hget i hi]
    refine Nat.mod_eq_of_lt ?_
    have h1 : (i + 1) * (cfg.KERNEL_STACK_SIZE + cfg.KERNEL_STACK_PAD) ≤
        n * (cfg.KERNEL_STACK_SIZE + cfg.KERNEL_STACK_PAD) :=
      Nat.mul_le_mul_right _ hin
    have h2 : (i + 1) * (cfg.KERNEL_STACK_SIZE + cfg.KERNEL_STACK_PAD) =
        i * (cfg.KERNEL_STACK_SIZE + cfg.KERNEL_STACK_PAD) +
          (cfg.KERNEL_STACK_SIZE + cfg.KERNEL_STACK_PAD) := by ring
    omega
  · intro i j hi hj hne
    rcases hsep i j hi hj hne with h | h
    · left; omega
    · right; omega

/-- C10: the shared stack cursor starts at `KERNEL_STACKS_BASE`
(`main.rs` line 37), so in any serialized run that does not wrap 64 bits
the first core's stack base is exactly `KERNEL_STACKS_BASE` (its handoff
stack top is that plus `KERNEL_STACK_SIZE`), and the `i`-th core's base is
`KERNEL_STACKS_BASE + i * (KERNEL_STACK_SIZE + KERNEL_STACK_PAD)` — a
non-negative multiple of the increment above the base. -/
theorem stack_cursor_starts_at_base {cfg : Config} {n : Nat}
    {hs : List Handoff} {stF : BootArgs}
    (hrun : runEntries cfg n (initBootArgs cfg) = some (hs, stF))
    (hnw : cfg.KERNEL_STACKS_BASE +
      n * (cfg.KERNEL_STACK_SIZE + cfg.KERNEL_STACK_PAD) < U64MOD) :
    (initBootArgs cfg).stack_vaddr = cfg.KERNEL_STACKS_BASE ∧
    ∀ i (hi : i < hs.length),
      (hs.get ⟨i, hi⟩).stack = cfg.KERNEL_STACKS_BASE +
        i * (cfg.KERNEL_STACK_SIZE + cfg.KERNEL_STACK_PAD) +
        cfg.KERNEL_STACK_SIZE := by
  have hsv : (initBootArgs cfg).stack_vaddr = cfg.KERNEL_STACKS_BASE := rfl
  have hnw' : (initBootArgs cfg).stack_vaddr +
      n * (cfg.KERNEL_STACK_SIZE + cfg.KERNEL_STACK_PAD) < U64MOD := by
    rw [hsv]; exact hnw
  obtain ⟨_, htops, _, _⟩ := stack_allocation_disjoint hrun hnw'
  exact ⟨hsv, fun i hi => (htops i hi).trans (by rw [hsv])⟩

/-- C1: the three one-time cells transition unset-to-set exactly once.  A
core entering the locked section with all three cells unset runs the
download/parse/build sequence (`runsBuild`), after which all three cells
are set; the next core entering observes all three set, skips the build,
and its handoff carries the same kernel entry address and the same two
table roots as the first core's.  A partially-set state is never produced
(the state after every successful invocation has all three cells set). -/
theorem entry_one_time_idempotent {cfg : Config} {st0 st1 st2 : BootArgs}
    {h1 h2 : Handoff}
    (hU : allUnset st0 = true)
    (he1 : entry cfg st0 = some (h1, st1))
    (he2 : entry cfg st1 = some (h2, st2)) :
    runsBuild st0 = true ∧ runsBuild st1 = false ∧
    allSet st1 = true ∧ allSet st2 = true ∧
    h2.entry_point = h1.entry_point ∧ h2.cr3 = h1.cr3 ∧
    h2.tramp_cr3 = h1.tramp_cr3 := by
  unfold allUnset at hU
  rw [Bool.and_eq_true, Bool.and_eq_true] at hU
  obtain ⟨⟨hke0, hpt0⟩, htr0⟩ := hU
  rw [Option.isNone_iff_eq_none] at hke0
  have hrb0 : runsBuild st0 = true := by
    unfold runsBuild
    rw [hke0]
    rfl
  have hset1 : allSet st1 = true := entry_allSet he1
  have hset2 : allSet st2 = true := entry_allSet he2
  have hrb1 : runsBuild st1 = false := by
    unfold allSet at hset1
    rw [Bool.and_eq_true, Bool.and_eq_true] at hset1
    unfold runsBuild
    cases hx : st1.kernel_entry with
    | none => rw [hx] at hset1; exact absurd hset1.1.1 (by simp)
    | some k => rfl
  -- decompose the first invocation: the build branch runs
  unfold entry at he1
  cases hot1 : oneTime cfg (mmInit st0) with
  | none => rw [hot1] at he1; exact absurd he1 (by simp)
  | some stB =>
  rw [hot1] at he1
  simp only [Option.some_bind] at he1
  have hkeM : (mmInit st0).kernel_entry = none := (mmInit_fields st0).1.trans hke0
  obtain ⟨hptM, htrM, pm, pe, tramp, ktw, hfmM, hker, htrB, hkwB, hstB⟩ :=
    oneTime_build hkeM hot1
  obtain ⟨pm1, pt, pt2, ke, tr, hfm1, hpt1, hke1, htr1, hm1, hh1, hst1⟩ :=
    perCore_spec he1
  subst hstB
  have hke' : some pe.entry_point = some ke := hke1
  injection hke' with hke'
  have htr' : some tramp = some tr := htr1
  injection htr' with htr'
  -- state after the first invocation
  have hke1' : st1.kernel_entry = some pe.entry_point := by
    rw [hst1]
  have hpt1' : st1.page_table = some pt2 := by
    rw [hst1]
  have htr1' : st1.trampoline_page_table = some tramp := by
    rw [hst1]
  -- decompose the second invocation: the build is skipped
  unfold entry at he2
  have hot2 : oneTime cfg (mmInit st1) = some (mmInit st1) :=
    oneTime_skip _ _ pe.entry_point ((mmInit_fields st1).1.trans hke1')
  rw [hot2] at he2
  simp only [Option.some_bind] at he2
  obtain ⟨pm2, ptb, pt2b, ke2, tr2, hfm2, hpt2, hke2, htr2, hm2, hh2, hst2⟩ :=
    perCore_spec he2
  have hke2' : some pe.entry_point = some ke2 :=
    ((mmInit_fields st1).1.trans hke1').symm.trans hke2
  injection hke2' with hke2'
  have hpt2' : some pt2 = some ptb :=
    ((mmInit_fields st1).2.1.trans hpt1').symm.trans hpt2
  injection hpt2' with hpt2'
  have htr2' : some tramp = some tr2 :=
    ((mmInit_fields st1).2.2.1.trans htr1').symm.trans htr2
  injection htr2' with htr2'
  have hroot : pt2b.root = pt2.root := by
    rw [map_root hm2, ← hpt2']
  subst hh1
  subst hh2
  refine ⟨hrb0, hrb1, hset1, hset2, ?_, ?_, ?_⟩
  · show ke2 = ke
    rw [← hke2', hke']
  · show pt2b.root % U32MOD = pt2.root % U32MOD
    rw [hroot]
  · show tr2.root % U32MOD = tr.root % U32MOD
    rw [← htr2', htr']

theorem map_lookup_stack {pt pt' : PageTable} {base size : Nat} {r w x : Bool}
    (hm : pt.map base size r w x = some pt') :
    (∀ p ∈ pageStarts size,
       pt'.lookup (base + p) =
         some (PTEntry.page r w x (initContent size none p))) ∧
    (∀ a, (∀ p ∈ pageStarts size, a ≠ base + p) → pt'.lookup a = pt.lookup a) ∧
    (∀ a e, pt.lookup a = some e → pt'.lookup a = some e) := by
  obtain ⟨hsz, hseq⟩ := map_some hm
  have hspec := installSeqO_spec _ _ _ hseq
  refine ⟨?_, ?_, hspec.2.1⟩
  · intro p hp
    refine hspec.2.2.2 (base + p, PTEntry.page r w x (initContent size none p)) ?_
    unfold initPairs
    rw [List.mem_map]
    exact ⟨p, hp, rfl⟩
  · intro a ha
    refine hspec.2.2.1 a ?_
    unfold initPairs
    rw [List.map_map, List.mem_map]
    rintro ⟨p, hp, hpa⟩
    exact ha p hp hpa.symm

theorem entry_allSet_table {cfg : Config} {st st' : BootArgs} {h : Handoff}
    {T : PageTable}
    (hset : allSet st = true) (hT : st.page_table = some T)
    (he : entry cfg st = some (h, st')) :
    ∃ T', st'.page_table = some T' ∧
      T.map st.stack_vaddr cfg.KERNEL_STACK_SIZE true true false = some T' ∧
      st'.kernel_entry = st.kernel_entry ∧
      st'.trampoline_page_table = st.trampoline_page_table := by
  unfold allSet at hset
  rw [Bool.and_eq_true, Bool.and_eq_true] at hset
  obtain ⟨⟨hke, _⟩, _⟩ := hset
  rw [Option.isSome_iff_exists] at hke
  obtain ⟨ke, hke⟩ := hke
  unfold entry at he
  have hot : oneTime cfg (mmInit st) = some (mmInit st) :=
    oneTime_skip _ _ ke ((mmInit_fields st).1.trans hke)
  rw [hot] at he
  simp only [Option.some_bind] at he
  obtain ⟨pm, pt, pt2, ke1, tr, _, hpt, _, _, hm, _, hst⟩ := perCore_spec he
  have hptT : some T = some pt := ((mmInit_fields st).2.1.trans hT).symm.trans hpt
  injection hptT with hptT
  subst hptT
  refine ⟨pt2, ?_, ?_, ?_, ?_⟩
  · rw [hst]
  · rw [show (mmInit st).stack_vaddr = st.stack_vaddr from
      (mmInit_fields st).2.2.2.1] at hm
    exact hm
  · rw [hst]
    exact (mmInit_fields st).1
  · rw [hst]
    exact (mmInit_fields st).2.2.1

theorem run_stack_props {cfg : Config} :
    ∀ (n : Nat) (st : BootArgs) (T : PageTable) (hs : List Handoff)
      (stF : BootArgs),
      runEntries cfg n st = some (hs, stF) →
      allSet st = true → st.page_table = some T →
      st.stack_vaddr + n * (cfg.KERNEL_STACK_SIZE + cfg.KERNEL_STACK_PAD) <
        U64MOD →
      ∃ TF, stF.page_table = some TF ∧
        (∀ a e, T.lookup a = some e → TF.lookup a = some e) ∧
        (∀ a, (∀ j, j < n →
            a < st.stack_vaddr +
              j * (cfg.KERNEL_STACK_SIZE + cfg.KERNEL_STACK_PAD) ∨
            st.stack_vaddr +
              j * (cfg.KERNEL_STACK_SIZE + cfg.KERNEL_STACK_PAD) +
              cfg.KERNEL_STACK_SIZE ≤ a) →
          TF.lookup a = T.lookup a) ∧
        (∀ i, i < n → ∀ pg ∈ pageStarts cfg.KERNEL_STACK_SIZE,
          TF.lookup (st.stack_vaddr +
              i * (cfg.KERNEL_STACK_SIZE + cfg.KERNEL_STACK_PAD) + pg) =
            some (PTEntry.page true true false
              (initContent cfg.KERNEL_STACK_SIZE none pg))) := by
  intro n
  induction n with
  | zero =>
    intro st T hs stF hrun hset hT hnw
    unfold runEntries at hrun
    injection hrun with hrun
    rw [Prod.mk.injEq] at hrun
    obtain ⟨rfl, rfl⟩ := hrun
    exact ⟨T, hT, fun a e h => h, fun a _ => rfl,
      fun i hi => absurd hi (by omega)⟩
  | succ n ih =>
    intro st T hs stF hrun hset hT hnw
    unfold runEntries at hrun
    cases he : entry cfg st with
    | none => rw [he] at hrun; exact absurd hrun (by simp)
    | some p =>
    rw [he] at hrun
    simp only [Option.some_bind] at hrun
    cases hr : runEntries cfg n p.2 with
    | none => rw [hr] at hrun; exact absurd hrun (by simp)
    | some q =>
    rw [hr] at hrun
    have hrun' : some (p.1 :: q.1, q.2) = some (hs, stF) := hrun
    injection hrun' with hrun'
    rw [Prod.mk.injEq] at hrun'
    obtain ⟨rfl, rfl⟩ := hrun'
    have he' : entry cfg st = some (p.1, p.2) := he.trans (by rw [Prod.mk.eta])
    obtain ⟨T1, hT1, hm, _, _⟩ := entry_allSet_table hset hT he'
    obtain ⟨hmaps, hother, hpres⟩ := map_lookup_stack hm
    have hset1 : allSet p.2 = true := entry_allSet he'
    have hc : p.2.stack_vaddr = st.stack_vaddr +
        (cfg.KERNEL_STACK_SIZE + cfg.KERNEL_STACK_PAD) := by
      rw [(entry_cursor he').1]
      refine Nat.mod_eq_of_lt ?_
      have h1 : 1 * (cfg.KERNEL_STACK_SIZE + cfg.KERNEL_STACK_PAD) ≤
          (n + 1) * (cfg.KERNEL_STACK_SIZE + cfg.KERNEL_STACK_PAD) :=
        Nat.mul_le_mul_right _ (by omega)
      rw [Nat.one_mul] at h1
      omega
    have hnw1 : p.2.stack_vaddr +
        n * (cfg.KERNEL_STACK_SIZE + cfg.KERNEL_STACK_PAD) < U64MOD := by
      rw [hc]
      have h2 : (n + 1) * (cfg.KERNEL_STACK_SIZE + cfg.KERNEL_STACK_PAD) =
          n * (cfg.KERNEL_STACK_SIZE + cfg.KERNEL_STACK_PAD) +
          (cfg.KERNEL_STACK_SIZE + cfg.KERNEL_STACK_PAD) := by ring
      omega
    obtain ⟨TF, hTF, Fpres, Fother, Fmaps⟩ :=
      ih p.2 T1 q.1 q.2 hr hset1 hT1 hnw1
    refine ⟨TF, hTF, ?_, ?_, ?_⟩
    · intro a e hae
      exact Fpres a e (hpres a e hae)
    · intro a ha
      have hstep : TF.lookup a = T1.lookup a := by
        refine Fother a ?_
        intro j hj
        have haj := ha (j + 1) (by omega)
        have hmul : (j + 1) * (cfg.KERNEL_STACK_SIZE + cfg.KERNEL_STACK_PAD) =
            j * (cfg.KERNEL_STACK_SIZE + cfg.KERNEL_STACK_PAD) +
            (cfg.KERNEL_STACK_SIZE + cfg.KERNEL_STACK_PAD) := by ring
        rw [hc]
        omega
      rw [hstep]
      refine hother a ?_
      intro pg hpg
      have h0 := ha 0 (by omega)
      have hlt := pageStarts_lt hpg
      rw [Nat.zero_mul, Nat.add_zero] at h0
      omega
    · intro i hi pg hpg
      cases i with
      | zero =>
        rw [Nat.zero_mul, Nat.add_zero]
        exact Fpres _ _ (hmaps pg hpg)
      | succ i =>
        have hFm := Fmaps i (by omega) pg hpg
        have haddr : p.2.stack_vaddr +
            i * (cfg.KERNEL_STACK_SIZE + cfg.KERNEL_STACK_PAD) + pg =
            st.stack_vaddr +
            (i + 1) * (cfg.KERNEL_STACK_SIZE + cfg.KERNEL_STACK_PAD) + pg := by
          rw [hc]
          ring
        rw [haddr] at hFm
        exact hFm

/-- C8: in a serialized run of `n` cores from the pristine state, each
core's stack mapping covers exactly the pages of
`[base, base + KERNEL_STACK_SIZE)` at its ticket base with entries that
are readable and writable but not executable (`main.rs` lines 170-173),
and — provided the table built by the one-time initialization maps nothing
into any guard region — the `KERNEL_STACK_PAD` guard region above each
stack is never mapped in the final kernel table. -/
theorem stack_mapping_exact_with_guard {cfg : Config} {n : Nat}
    {st0 stF : BootArgs} {hs : List Handoff}
    (hU : allUnset st0 = true)
    (hrun : runEntries cfg n st0 = some (hs, stF))
    (hnw : st0.stack_vaddr +
      n * (cfg.KERNEL_STACK_SIZE + cfg.KERNEL_STACK_PAD) < U64MOD)
    (hguard : ∀ i, i < n → ∀ d, d < cfg.KERNEL_STACK_PAD →
      (builtTableLookup cfg st0 (st0.stack_vaddr +
        i * (cfg.KERNEL_STACK_SIZE + cfg.KERNEL_STACK_PAD) +
        cfg.KERNEL_STACK_SIZE + d)).isNone = true) :
    ∀ TF, stF.page_table = some TF →
      (∀ i, i < n → ∀ pg ∈ pageStarts cfg.KERNEL_STACK_SIZE,
        TF.lookup (st0.stack_vaddr +
            i * (cfg.KERNEL_STACK_SIZE + cfg.KERNEL_STACK_PAD) + pg) =
          some (PTEntry.page true true false
            (initContent cfg.KERNEL_STACK_SIZE none pg))) ∧
      (∀ i a, i < n →
        st0.stack_vaddr + i * (cfg.KERNEL_STACK_SIZE + cfg.KERNEL_STACK_PAD) +
          cfg.KERNEL_STACK_SIZE ≤ a →
        a < st0.stack_vaddr +
          i * (cfg.KERNEL_STACK_SIZE + cfg.KERNEL_STACK_PAD) +
          cfg.KERNEL_STACK_SIZE + cfg.KERNEL_STACK_PAD →
        TF.lookup a = none) := by
  cases n with
  | zero =>
    intro TF hTF
    exact ⟨fun i hi => absurd hi (by omega),
      fun i a hi _ _ => absurd hi (by omega)⟩
  | succ k =>
  unfold runEntries at hrun
  cases he : entry cfg st0 with
  | none => rw [he] at hrun; exact absurd hrun (by simp)
  | some p =>
  rw [he] at hrun
  simp only [Option.some_bind] at hrun
  cases hr : runEntries cfg k p.2 with
  | none => rw [hr] at hrun; exact absurd hrun (by simp)
  | some q =>
  rw [hr] at hrun
  have hrun' : some (p.1 :: q.1, q.2) = some (hs, stF) := hrun
  injection hrun' with hrun'
  rw [Prod.mk.injEq] at hrun'
  obtain ⟨rfl, rfl⟩ := hrun'
  have he' : entry cfg st0 = some (p.1, p.2) := he.trans (by rw [Prod.mk.eta])
  -- decompose the first entry: one-time build, then this core's stack map
  have hke0 : st0.kernel_entry = none := by
    unfold allUnset at hU
    rw [Bool.and_eq_true, Bool.and_eq_true] at hU
    exact Option.isNone_iff_eq_none.mp hU.1.1
  have heu := he'
  unfold entry at heu
  cases hot : oneTime cfg (mmInit st0) with
  | none => rw [hot] at heu; exact absurd heu (by simp)
  | some stB =>
  rw [hot] at heu
  simp only [Option.some_bind] at heu
  have hkeM : (mmInit st0).kernel_entry = none := (mmInit_fields st0).1.trans hke0
  obtain ⟨hptM, htrM, pm, pe, tramp, ktw, hfmM, hker, htrB, hkwB, hstB⟩ :=
    oneTime_build hkeM hot
  obtain ⟨pm1, pt, pt2, ke, tr, hfm1, hpt1, hke1, htr1, hm1, hh1, hst1⟩ :=
    perCore_spec heu
  have hptB : stB.page_table = some (loadSections ktw pe.sections) := by
    rw [hstB]
  have hptpt : some (loadSections ktw pe.sections) = some pt :=
    hptB.symm.trans hpt1
  injection hptpt with hptpt
  have hsvB : stB.stack_vaddr = st0.stack_vaddr := by
    rw [hstB]
    exact (mmInit_fields st0).2.2.2.1
  rw [hsvB] at hm1
  have hpt2 : p.2.page_table = some pt2 := by
    rw [hst1]
  have hDle : 1 * (cfg.KERNEL_STACK_SIZE + cfg.KERNEL_STACK_PAD) ≤
      (k + 1) * (cfg.KERNEL_STACK_SIZE + cfg.KERNEL_STACK_PAD) :=
    Nat.mul_le_mul_right _ (by omega)
  rw [Nat.one_mul] at hDle
  have hsv2 : p.2.stack_vaddr = st0.stack_vaddr +
      (cfg.KERNEL_STACK_SIZE + cfg.KERNEL_STACK_PAD) := by
    rw [hst1]
    show (stB.stack_vaddr +
      (cfg.KERNEL_STACK_SIZE + cfg.KERNEL_STACK_PAD)) % U64MOD = _
    rw [hsvB]
    exact Nat.mod_eq_of_lt (by omega)
  have hset1 : allSet p.2 = true := entry_allSet he'
  have hnw1 : p.2.stack_vaddr +
      k * (cfg.KERNEL_STACK_SIZE + cfg.KERNEL_STACK_PAD) < U64MOD := by
    rw [hsv2]
    have h2 : (k + 1) * (cfg.KERNEL_STACK_SIZE + cfg.KERNEL_STACK_PAD) =
        k * (cfg.KERNEL_STACK_SIZE + cfg.KERNEL_STACK_PAD) +
        (cfg.KERNEL_STACK_SIZE + cfg.KERNEL_STACK_PAD) := by ring
    omega
  obtain ⟨TF', hTF', Fpres, Fother, Fmaps⟩ :=
    run_stack_props k p.2 pt2 q.1 q.2 hr hset1 hpt2 hnw1
  obtain ⟨hmaps, hother, hpres⟩ := map_lookup_stack hm1
  intro TF hTF
  have hTT : some TF' = some TF := hTF'.symm.trans hTF
  injection hTT with hTT
  subst hTT
  constructor
  · intro i hi pg hpg
    cases i with
    | zero =>
      rw [Nat.zero_mul, Nat.add_zero]
      exact Fpres _ _ (hmaps pg hpg)
    | succ i =>
      have hFm := Fmaps i (by omega) pg hpg
      have haddr : p.2.stack_vaddr +
          i * (cfg.KERNEL_STACK_SIZE + cfg.KERNEL_STACK_PAD) + pg =
          st0.stack_vaddr +
          (i + 1) * (cfg.KERNEL_STACK_SIZE + cfg.KERNEL_STACK_PAD) + pg := by
        rw [hsv2]
        ring
      rw [haddr] at hFm
      exact hFm
  · intro i a hi h1 h2
    have hstep : TF'.lookup a = pt2.lookup a := by
      refine Fother a ?_
      intro j hj
      have hmulj : (j + 1) * (cfg.KERNEL_STACK_SIZE + cfg.KERNEL_STACK_PAD) =
          j * (cfg.KERNEL_STACK_SIZE + cfg.KERNEL_STACK_PAD) +
          (cfg.KERNEL_STACK_SIZE + cfg.KERNEL_STACK_PAD) := by ring
      by_cases hji : j + 1 ≤ i
      · right
        have hle : (j + 1) * (cfg.KERNEL_STACK_SIZE + cfg.KERNEL_STACK_PAD) ≤
            i * (cfg.KERNEL_STACK_SIZE + cfg.KERNEL_STACK_PAD) :=
          Nat.mul_le_mul_right _ hji
        rw [hsv2]
        omega
      · left
        have hij : i + 1 ≤ j + 1 := by omega
        have hle : (i + 1) * (cfg.KERNEL_STACK_SIZE + cfg.KERNEL_STACK_PAD) ≤
            (j + 1) * (cfg.KERNEL_STACK_SIZE + cfg.KERNEL_STACK_PAD) :=
          Nat.mul_le_mul_right _ hij
        have hmuli : (i + 1) * (cfg.KERNEL_STACK_SIZE + cfg.KERNEL_STACK_PAD) =
            i * (cfg.KERNEL_STACK_SIZE + cfg.KERNEL_STACK_PAD) +
            (cfg.KERNEL_STACK_SIZE + cfg.KERNEL_STACK_PAD) := by ring
        rw [hsv2]
        omega
    have hstep2 : pt2.lookup a = pt.lookup a := by
      refine hother a ?_
      intro pg hpg
      have hlt := pageStarts_lt hpg
      omega
    rw [hstep, hstep2, ← hptpt]
    have hd : a - (st0.stack_vaddr +
        i * (cfg.KERNEL_STACK_SIZE + cfg.KERNEL_STACK_PAD) +
        cfg.KERNEL_STACK_SIZE) < cfg.KERNEL_STACK_PAD := by omega
    have hg := hguard i hi _ hd
    rw [show st0.stack_vaddr +
        i * (cfg.KERNEL_STACK_SIZE + cfg.KERNEL_STACK_PAD) +
        cfg.KERNEL_STACK_SIZE +
        (a - (st0.stack_vaddr +
          i * (cfg.KERNEL_STACK_SIZE + cfg.KERNEL_STACK_PAD) +
          cfg.KERNEL_STACK_SIZE)) = a from by omega] at hg
    have hb : builtTableLookup cfg st0 a =
        (loadSections ktw pe.sections).lookup a := by
      unfold builtTableLookup
      rw [hot]
      simp only [Option.some_bind]
      rw [hptB]
      simp only [Option.some_bind]
    rw [hb] at hg
    exact Option.isNone_iff_eq_none.mp hg

/-- C3 (code bug): a failing `map_init` during section loading is not
fatal.  With the kernel image of `bugCfg` — section A at `0x10000`,
section B also at `0x10000` (so B's `map_init` is rejected), then section
C at `0x20000` — B's `map_init` on the table holding A returns `none`,
yet the loading loop of `main.rs` lines 128-147 discards that result,
goes on to map section C, and the core still reaches its handoff, because
the call site carries no `.unwrap()` unlike every other mapping call in
`entry`. -/
theorem load_sections_continue_after_failure :
    (bugTableAfterA.map_init 0x10000 0x1000 true true false
      (some (byteSource [9]))).isNone = true ∧
    ((loadSections bugKtw
      [⟨0x10000, 0x1000, [1, 2, 3], true, false, false⟩,
       ⟨0x10000, 0x1000, [9], true, true, false⟩,
       ⟨0x20000, 0x1000, [], true, false, true⟩]).lookup 0x20000).isSome =
      true ∧
    (entry bugCfg (initBootArgs bugCfg)).isSome = true :=
  ⟨by decide, by decide, by decide⟩

theorem entry_one_time_idempotent_witness :
    allUnset exSt0 = true ∧
    entry exCfg exSt0 = some exP1 ∧
    entry exCfg exP1.2 = some exP2 ∧
    (runsBuild exSt0 = true ∧ runsBuild exP1.2 = false ∧
     allSet exP1.2 = true ∧ allSet exP2.2 = true ∧
     exP2.1.entry_point = exP1.1.entry_point ∧ exP2.1.cr3 = exP1.1.cr3 ∧
     exP2.1.tramp_cr3 = exP1.1.tramp_cr3) :=
  ⟨by decide, rfl, rfl,
    entry_one_time_idempotent (by decide)
      (show entry exCfg exSt0 = some (exP1.1, exP1.2) from rfl)
      (show entry exCfg exP1.2 = some (exP2.1, exP2.2) from rfl)⟩

theorem kernel_window_mapped_witness :
    buildKernelWindow 0x100000 8192 exWinT0 = some exWinPT ∧
    4096 % PAGE_SIZE = 0 ∧ (4096 : Nat) < 8192 ∧
    exWinPT.lookup (0x100000 + 4096) =
      some (PTEntry.raw (4096 ||| PAGE_WRITE ||| PAGE_PRESENT)) :=
  ⟨rfl, by decide, by decide,
    kernel_window_mapped
      (show buildKernelWindow 0x100000 8192 exWinT0 = some exWinPT from rfl)
      (by decide) (by decide)⟩

theorem trampoline_double_mapped_witness :
    buildTrampoline 0x100000 8192 exTrampT0 = some exTrampPT ∧
    4096 % PAGE_SIZE = 0 ∧ (4096 : Nat) < 8192 ∧
    (exTrampPT.lookup 4096 =
       some (PTEntry.raw (4096 ||| PAGE_WRITE ||| PAGE_PRESENT)) ∧
     exTrampPT.lookup (0x100000 + 4096) =
       some (PTEntry.raw (4096 ||| PAGE_WRITE ||| PAGE_PRESENT))) :=
  ⟨rfl, by decide, by decide,
    trampoline_double_mapped
      (show buildTrampoline 0x100000 8192 exTrampT0 = some exTrampPT from rfl)
      (by decide) (by decide)⟩

theorem map_init_contents_witness :
    exPT6base.map_init 0x10000 8192 true false true
      (some (byteSource [7, 8, 9])) = some exPT6 ∧
    (1 : Nat) < 8192 ∧
    ((∀ h : (1 : Nat) < [7, 8, 9].length,
        byteSource [7, 8, 9] 1 = [7, 8, 9].get ⟨1, h⟩ ∧
        exPT6.byteAt 0x10000 1 = some ([7, 8, 9].get ⟨1, h⟩)) ∧
     (([7, 8, 9] : List Nat).length ≤ 1 →
        byteSource [7, 8, 9] 1 = 0 ∧ exPT6.byteAt 0x10000 1 = some 0)) :=
  ⟨rfl, by decide,
    map_init_contents
      (show exPT6base.map_init 0x10000 8192 true false true
        (some (byteSource [7, 8, 9])) = some exPT6 from rfl)
      (by decide)⟩

theorem handoff_args_witness :
    entry exCfg exSt0 = some exP1 ∧
    (exP1.2.kernel_entry = some exP1.1.entry_point ∧
     exP1.1.stack = (exSt0.stack_vaddr + exCfg.KERNEL_STACK_SIZE) % U64MOD ∧
     exP1.1.param = exCfg.bootArgsPtr ∧
     (∀ t, exP1.2.page_table = some t → exP1.1.cr3 = t.root % U32MOD) ∧
     (∀ t, exP1.2.trampoline_page_table = some t →
        exP1.1.tramp_cr3 = t.root % U32MOD) ∧
     exP1.1.phys_window_base = exCfg.KERNEL_PHYS_WINDOW_BASE) :=
  ⟨rfl, handoff_args
    (show entry exCfg exSt0 = some (exP1.1, exP1.2) from rfl)⟩

theorem map_raw_overlap_rejected_witness :
    exPT9.lookup 4096 = some (PTEntry.raw 7) ∧ exPT9.map_raw 4096 9 = none :=
  ⟨rfl, map_raw_overlap_rejected
    (show exPT9.lookup 4096 = some (PTEntry.raw 7) from rfl)⟩

theorem stack_allocation_disjoint_witness :
    runEntries exCfg 2 exSt0 = some exRun2 ∧
    exSt0.stack_vaddr +
      2 * (exCfg.KERNEL_STACK_SIZE + exCfg.KERNEL_STACK_PAD) < U64MOD ∧
    (exRun2.1.length = 2 ∧
     (∀ i (hi : i < exRun2.1.length),
       (exRun2.1.get ⟨i, hi⟩).stack = exSt0.stack_vaddr +
         i * (exCfg.KERNEL_STACK_SIZE + exCfg.KERNEL_STACK_PAD) +
         exCfg.KERNEL_STACK_SIZE) ∧
     (∀ i j, i < 2 → j < 2 → i ≠ j →
       exSt0.stack_vaddr + i * (exCfg.KERNEL_STACK_SIZE + exCfg.KERNEL_STACK_PAD) +
           exCfg.KERNEL_STACK_SIZE ≤
         exSt0.stack_vaddr + j * (exCfg.KERNEL_STACK_SIZE + exCfg.KERNEL_STACK_PAD) ∨
       exSt0.stack_vaddr + j * (exCfg.KERNEL_STACK_SIZE + exCfg.KERNEL_STACK_PAD) +
           exCfg.KERNEL_STACK_SIZE ≤
         exSt0.stack_vaddr + i * (exCfg.KERNEL_STACK_SIZE + exCfg.KERNEL_STACK_PAD)) ∧
     (∀ i j, i < 2 → j < 2 → i ≠ j →
       exSt0.stack_vaddr + i * (exCfg.KERNEL_STACK_SIZE + exCfg.KERNEL_STACK_PAD) +
           exCfg.KERNEL_STACK_SIZE + exCfg.KERNEL_STACK_PAD ≤
         exSt0.stack_vaddr + j * (exCfg.KERNEL_STACK_SIZE + exCfg.KERNEL_STACK_PAD) ∨
       exSt0.stack_vaddr + j * (exCfg.KERNEL_STACK_SIZE + exCfg.KERNEL_STACK_PAD) +
           exCfg.KERNEL_STACK_SIZE + exCfg.KERNEL_STACK_PAD ≤
         exSt0.stack_vaddr + i * (exCfg.KERNEL_STACK_SIZE + exCfg.KERNEL_STACK_PAD))) :=
  ⟨rfl, by decide,
    stack_allocation_disjoint
      (show runEntries exCfg 2 exSt0 = some (exRun2.1, exRun2.2) from rfl)
      (by decide)⟩

theorem stack_cursor_starts_at_base_witness :
    runEntries exCfg 2 (initBootArgs exCfg) = some exRun2 ∧
    exCfg.KERNEL_STACKS_BASE +
      2 * (exCfg.KERNEL_STACK_SIZE + exCfg.KERNEL_STACK_PAD) < U64MOD ∧
    ((initBootArgs exCfg).stack_vaddr = exCfg.KERNEL_STACKS_BASE ∧
     ∀ i (hi : i < exRun2.1.length),
       (exRun2.1.get ⟨i, hi⟩).stack = exCfg.KERNEL_STACKS_BASE +
         i * (exCfg.KERNEL_STACK_SIZE + exCfg.KERNEL_STACK_PAD) +
         exCfg.KERNEL_STACK_SIZE) :=
  ⟨rfl, by decide,
    stack_cursor_starts_at_base
      (show runEntries exCfg 2 (initBootArgs exCfg) =
        some (exRun2.1, exRun2.2) from rfl)
      (by decide)⟩

theorem stack_mapping_exact_with_guard_witness :
    allUnset exSt08 = true ∧
    runEntries exCfg8 1 exSt08 = some exRun8 ∧
    exSt08.stack_vaddr +
      1 * (exCfg8.KERNEL_STACK_SIZE + exCfg8.KERNEL_STACK_PAD) < U64MOD ∧
    (∀ i, i < 1 → ∀ d, d < exCfg8.KERNEL_STACK_PAD →
      (builtTableLookup exCfg8 exSt08 (exSt08.stack_vaddr +
        i * (exCfg8.KERNEL_STACK_SIZE + exCfg8.KERNEL_STACK_PAD) +
        exCfg8.KERNEL_STACK_SIZE + d)).isNone = true) ∧
    (∀ TF, exRun8.2.page_table = some TF →
      (∀ i, i < 1 → ∀ pg ∈ pageStarts exCfg8.KERNEL_STACK_SIZE,
        TF.lookup (exSt08.stack_vaddr +
            i * (exCfg8.KERNEL_STACK_SIZE + exCfg8.KERNEL_STACK_PAD) + pg) =
          some (PTEntry.page true true false
            (initContent exCfg8.KERNEL_STACK_SIZE none pg))) ∧
      (∀ i a, i < 1 →
        exSt08.stack_vaddr +
          i * (exCfg8.KERNEL_STACK_SIZE + exCfg8.KERNEL_STACK_PAD) +
          exCfg8.KERNEL_STACK_SIZE ≤ a →
        a < exSt08.stack_vaddr +
          i * (exCfg8.KERNEL_STACK_SIZE + exCfg8.KERNEL_STACK_PAD) +
          exCfg8.KERNEL_STACK_SIZE + exCfg8.KERNEL_STACK_PAD →
        TF.lookup a = none)) :=
  ⟨by decide, rfl, by decide, by decide,
    stack_mapping_exact_with_guard (by decide)
      (show runEntries exCfg8 1 exSt08 = some (exRun8.1, exRun8.2) from rfl)
      (by decide) (by decide)⟩
